import Mathlib

/-!
Verification of a CHIP-8 virtual machine core against its specification.

The machine state and its operations are shallowly embedded: 8-bit and
16-bit machine integers become `Nat` with explicit `% 256` / `% 65536`
where the source wraps, byte arrays become functions `Nat → Nat`, the
display becomes `Nat → Nat → Bool`, and every `panic!` in the source
becomes an explicit `fatal` outcome that carries the state at the moment
of the panic (all in-place mutations performed before the panic are
visible in that state, exactly as in the source).

Source of truth: `src/lib.rs` (`Chip8::load_program`, `Chip8::step`,
`Chip8::tick_timers`, `Chip8::is_sound_on`) and `src/font.rs` (`FONTS`).
-/

/-- Machine state of the emulator, mirroring the `Chip8` struct field by
field. `memory` is the 4096-byte address space (addresses outside the
array are never readable or writable in the embedding: every access is
bounds-checked exactly where the Rust indexing would panic). The stack is
a list whose head is the top (Rust `Vec` push/pop at the end). -/
@[ext]
structure Chip8 where
  memory : Nat → Nat
  display : Nat → Nat → Bool
  pc : Nat
  index_reg : Nat
  stack : List Nat
  delay_timer : Nat
  sound_timer : Nat
  registers : Nat → Nat

/-- Return value of `step`, as in the source. -/
inductive DisplayState where
  | Updated
  | NotUpdated
deriving DecidableEq

/-- The distinct `panic!` sites of `Chip8::step` plus the out-of-bounds
panics implicit in Rust slice/array indexing. -/
inductive PanicKind where
  | fetchOob
  | emptyStack
  | invalidInstruction (inst : Nat)
  | spriteOob
  | fontReg (vx : Nat)
  | memOob
  | unhandledNibble (inst : Nat)
deriving DecidableEq

/-- Outcome of one `step` call: normal return, or a panic. The panic
carries the state at the moment of the panic, since the Rust code mutates
`self` in place before the check that fails. -/
inductive StepResult where
  | ok (s : Chip8) (d : DisplayState)
  | fatal (k : PanicKind) (s : Chip8)

/-- Pointwise update of a byte/register bank (`bank[i] = v` in Rust). -/
def upd (f : Nat → Nat) (i v : Nat) : Nat → Nat :=
  fun j => if j = i then v else f j

/-- Pointwise update of one display pixel (`display[row][col] = b`). -/
def updDisp (d : Nat → Nat → Bool) (row col : Nat) (b : Bool) : Nat → Nat → Bool :=
  fun r c => if r = row ∧ c = col then b else d r c

/-- The sixteen 5-byte font glyphs of `src/font.rs`, in order 0-F. -/
def FONTS : List (List Nat) :=
  [[0xF0, 0x90, 0x90, 0x90, 0xF0],
   [0x20, 0x60, 0x20, 0x20, 0x70],
   [0xF0, 0x10, 0xF0, 0x80, 0xF0],
   [0xF0, 0x10, 0xF0, 0x10, 0xF0],
   [0x90, 0x90, 0xF0, 0x10, 0x10],
   [0xF0, 0x80, 0xF0, 0x10, 0xF0],
   [0xF0, 0x80, 0xF0, 0x90, 0xF0],
   [0xF0, 0x10, 0x20, 0x40, 0x40],
   [0xF0, 0x90, 0xF0, 0x90, 0xF0],
   [0xF0, 0x90, 0xF0, 0x10, 0xF0],
   [0xF0, 0x90, 0xF0, 0x90, 0x90],
   [0xE0, 0x90, 0xE0, 0x90, 0xE0],
   [0xF0, 0x80, 0x80, 0x80, 0xF0],
   [0xE0, 0x90, 0x90, 0x90, 0xE0],
   [0xF0, 0x80, 0xF0, 0x80, 0xF0],
   [0xF0, 0x80, 0xF0, 0x80, 0x80]]

/-- `mem[start..start+len].copy_from_slice(bytes)`: write a list of bytes
at consecutive addresses. -/
def copyFromSlice : (Nat → Nat) → Nat → List Nat → (Nat → Nat)
  | mem, _, [] => mem
  | mem, start, b :: bs => copyFromSlice (upd mem start b) (start + 1) bs

/-- The font-storing loop of `load_program`: glyph `idx` goes to address
`0x50 + 5 * idx`. -/
def writeFonts : (Nat → Nat) → Nat → List (List Nat) → (Nat → Nat)
  | mem, _, [] => mem
  | mem, idx, f :: fs => writeFonts (copyFromSlice mem (0x50 + 5 * idx) f) (idx + 1) fs

/-- `Chip8::load_program`. The source panics when the program does not
fit below address 4096; the panic is modelled as `none`. On success the
program is copied at 0x200 first, then the fonts at 0x50. -/
def load_program (program : List Nat) : Option Chip8 :=
  if program.length > 4096 - 512 then none
  else
    let mem1 := copyFromSlice (fun _ => 0) 0x200 program
    let mem2 := writeFonts mem1 0 FONTS
    some
      { memory := mem2
        display := fun _ _ => false
        pc := 0x200
        index_reg := 0x00
        stack := []
        delay_timer := 0
        sound_timer := 0
        registers := fun _ => 0 }

/-- One bit of the DXYN draw: if bit `bit_idx` (most significant first)
of the sprite byte is set, XOR it into the display pixel, recording a
collision in VF when an on pixel turns off. -/
def drawBitStep (byte bit_idx y_coord x_coord : Nat) (s : Chip8) : Chip8 :=
  let mask := 0x80 >>> bit_idx
  if byte &&& mask > 0 then
    if s.display y_coord x_coord then
      { s with display := updDisp s.display y_coord x_coord false,
               registers := upd s.registers 0xF 1 }
    else
      { s with display := updDisp s.display y_coord x_coord true }
  else s

/-- Inner loop of the DXYN draw: one sprite row. The list holds the
remaining bit indices (the source iterates `bit_idx in 0..8`), and the
loop breaks as soon as the column counter reaches 64 after a bit. -/
def drawBits (byte y_coord : Nat) : List Nat → Nat → Chip8 → Chip8
  | [], _, s => s
  | bit_idx :: rest, x_coord, s =>
      let s2 := drawBitStep byte bit_idx y_coord x_coord s
      if x_coord + 1 = 64 then s2 else drawBits byte y_coord rest (x_coord + 1) s2

/-- Outer loop of the DXYN draw: one iteration per sprite byte, top to
bottom. Note that the starting column is re-read from register `x` at
every row, exactly as in the source (`self.registers[x] as usize % 64`
inside the `for byte in bytes` loop), and the loop breaks once the row
counter reaches 32. -/
def drawRows : List Nat → Nat → Nat → Chip8 → Chip8
  | [], _, _, s => s
  | byte :: rest, y_coord, x, s =>
      let x_coord := s.registers x % 64
      let s2 := drawBits byte y_coord (List.range 8) x_coord s
      if y_coord + 1 = 32 then s2 else drawRows rest (y_coord + 1) x s2

/-- FX55 loop: `memory[I + i] = registers[i]` for `i in 0..=x`, with the
array-indexing panic when `I + i` is out of bounds (the writes performed
before the panic remain, as in Rust). -/
def storeLoop : Chip8 → Nat → List Nat → Except Chip8 Chip8
  | s, _, [] => Except.ok s
  | s, base, i :: rest =>
      if base + i < 4096 then
        storeLoop { s with memory := upd s.memory (base + i) (s.registers i) } base rest
      else Except.error s

/-- FX65 loop: `registers[i] = memory[I + i]` for `i in 0..=x`, with the
array-indexing panic when `I + i` is out of bounds. -/
def loadLoop : Chip8 → Nat → List Nat → Except Chip8 Chip8
  | s, _, [] => Except.ok s
  | s, base, i :: rest =>
      if base + i < 4096 then
        loadLoop { s with registers := upd s.registers i (s.memory (base + i)) } base rest
      else Except.error s

/-- `Chip8::step`: fetch, decode, execute one instruction. `keys` is the
keypress snapshot (only indices 0-15 are ever consulted) and `rnd` models
the byte returned by `rand::random` in the CXNN instruction. The fetch
reads `memory[pc]` and `memory[pc + 1]`, which panics unless
`pc + 1 < 4096`; afterwards `pc` is advanced by 2 before the execute
phase, so every fatal condition below observes the advanced `pc`. -/
def step (s : Chip8) (keys : Nat → Bool) (rnd : Nat) : StepResult :=
  if s.pc + 1 < 4096 then
    let first_byte := s.memory s.pc
    let second_byte := s.memory (s.pc + 1)
    let inst := (first_byte <<< 8) ||| second_byte
    let s1 : Chip8 := { s with pc := s.pc + 2 }
    let x := first_byte &&& 0x0f
    let y := second_byte >>> 4
    let n := second_byte &&& 0x0f
    let nn := second_byte
    let nnn := inst &&& 0x0fff
    if first_byte >>> 4 = 0x0 then
      if nnn = 0x0E0 then
        StepResult.ok { s1 with display := fun _ _ => false } DisplayState.Updated
      else if nnn = 0x0EE then
        match s1.stack with
        | [] => StepResult.fatal PanicKind.emptyStack s1
        | ret :: rest => StepResult.ok { s1 with pc := ret, stack := rest } DisplayState.NotUpdated
      else StepResult.fatal (PanicKind.invalidInstruction inst) s1
    else if first_byte >>> 4 = 0x1 then
      StepResult.ok { s1 with pc := nnn } DisplayState.NotUpdated
    else if first_byte >>> 4 = 0x2 then
      StepResult.ok { s1 with stack := s1.pc :: s1.stack, pc := nnn } DisplayState.NotUpdated
    else if first_byte >>> 4 = 0x3 then
      StepResult.ok (if s1.registers x = nn then { s1 with pc := s1.pc + 2 } else s1)
        DisplayState.NotUpdated
    else if first_byte >>> 4 = 0x4 then
      StepResult.ok (if s1.registers x ≠ nn then { s1 with pc := s1.pc + 2 } else s1)
        DisplayState.NotUpdated
    else if first_byte >>> 4 = 0x5 then
      StepResult.ok (if s1.registers x = s1.registers y then { s1 with pc := s1.pc + 2 } else s1)
        DisplayState.NotUpdated
    else if first_byte >>> 4 = 0x6 then
      StepResult.ok { s1 with registers := upd s1.registers x nn } DisplayState.NotUpdated
    else if first_byte >>> 4 = 0x7 then
      StepResult.ok { s1 with registers := upd s1.registers x ((s1.registers x + nn) % 256) }
        DisplayState.NotUpdated
    else if first_byte >>> 4 = 0x8 then
      if n = 0x0 then
        StepResult.ok { s1 with registers := upd s1.registers x (s1.registers y) }
          DisplayState.NotUpdated
      else if n = 0x1 then
        StepResult.ok { s1 with registers := upd s1.registers x (s1.registers x ||| s1.registers y) }
          DisplayState.NotUpdated
      else if n = 0x2 then
        StepResult.ok { s1 with registers := upd s1.registers x (s1.registers x &&& s1.registers y) }
          DisplayState.NotUpdated
      else if n = 0x3 then
        StepResult.ok { s1 with registers := upd s1.registers x (s1.registers x ^^^ s1.registers y) }
          DisplayState.NotUpdated
      else if n = 0x4 then
        let prev_val := s1.registers x
        let r2 := upd s1.registers x ((prev_val + s1.registers y) % 256)
        StepResult.ok { s1 with registers := upd r2 0xf (if prev_val > r2 x then 1 else 0) }
          DisplayState.NotUpdated
      else if n = 0x5 then
        StepResult.ok
          { s1 with registers := upd s1.registers x ((s1.registers x + 256 - s1.registers y) % 256) }
          DisplayState.NotUpdated
      else if n = 0x7 then
        StepResult.ok
          { s1 with registers := upd s1.registers x ((s1.registers y + 256 - s1.registers x) % 256) }
          DisplayState.NotUpdated
      else if n = 0x6 then
        let r1 := upd s1.registers 0xF (s1.registers x &&& 0x1)
        StepResult.ok { s1 with registers := upd r1 x (r1 x >>> 1) } DisplayState.NotUpdated
      else if n = 0xE then
        let r1 := upd s1.registers 0xF (s1.registers x &&& 0x80)
        StepResult.ok { s1 with registers := upd r1 x ((r1 x <<< 1) % 256) }
          DisplayState.NotUpdated
      else StepResult.fatal (PanicKind.invalidInstruction inst) s1
    else if first_byte >>> 4 = 0x9 then
      StepResult.ok (if s1.registers x ≠ s1.registers y then { s1 with pc := s1.pc + 2 } else s1)
        DisplayState.NotUpdated
    else if first_byte >>> 4 = 0xa then
      StepResult.ok { s1 with index_reg := nnn } DisplayState.NotUpdated
    else if first_byte >>> 4 = 0xb then
      StepResult.ok { s1 with pc := nnn + s1.registers 0 } DisplayState.NotUpdated
    else if first_byte >>> 4 = 0xc then
      StepResult.ok { s1 with registers := upd s1.registers x (rnd &&& nn) }
        DisplayState.NotUpdated
    else if first_byte >>> 4 = 0xd then
      let y_coord := s1.registers y % 32
      let s2 : Chip8 := { s1 with registers := upd s1.registers 0xF 0 }
      if s2.index_reg + n ≤ 4096 then
        let bytes := (List.range n).map (fun i => s2.memory (s2.index_reg + i))
        StepResult.ok (drawRows bytes y_coord x s2) DisplayState.Updated
      else StepResult.fatal PanicKind.spriteOob s2
    else if first_byte >>> 4 = 0xe then
      let vx := s1.registers x
      if nn = 0x9e then
        StepResult.ok (if vx < 16 ∧ keys vx then { s1 with pc := s1.pc + 2 } else s1)
          DisplayState.NotUpdated
      else if nn = 0xa1 then
        StepResult.ok (if 16 ≤ vx ∨ ¬ keys vx then { s1 with pc := s1.pc + 2 } else s1)
          DisplayState.NotUpdated
      else StepResult.fatal (PanicKind.invalidInstruction inst) s1
    else if first_byte >>> 4 = 0xf then
      if nn = 0x07 then
        StepResult.ok { s1 with registers := upd s1.registers x s1.delay_timer }
          DisplayState.NotUpdated
      else if nn = 0x15 then
        StepResult.ok { s1 with delay_timer := s1.registers x } DisplayState.NotUpdated
      else if nn = 0x18 then
        StepResult.ok { s1 with sound_timer := s1.registers x } DisplayState.NotUpdated
      else if nn = 0x1e then
        let prev_index := s1.index_reg
        let s2 : Chip8 := { s1 with index_reg := (s1.index_reg + s1.registers x) % 65536 }
        StepResult.ok
          (if s2.index_reg < prev_index then { s2 with registers := upd s2.registers 0xf 1 }
           else s2)
          DisplayState.NotUpdated
      else if nn = 0x0a then
        StepResult.ok
          (match (List.range 16).find? keys with
           | some idx => { s1 with registers := upd s1.registers x idx }
           | none => { s1 with pc := s1.pc - 2 })
          DisplayState.NotUpdated
      else if nn = 0x29 then
        let vx := s1.registers x
        if vx > 15 then StepResult.fatal (PanicKind.fontReg vx) s1
        else StepResult.ok { s1 with index_reg := 0x50 + 5 * vx } DisplayState.NotUpdated
      else if nn = 0x33 then
        let decimal_val := s1.registers x
        let ones := decimal_val % 10
        let tens := decimal_val / 10 % 10
        let hundreds := decimal_val / 100
        if s1.index_reg < 4096 then
          let s2 : Chip8 := { s1 with memory := upd s1.memory s1.index_reg hundreds }
          if s1.index_reg + 1 < 4096 then
            let s3 : Chip8 := { s2 with memory := upd s2.memory (s1.index_reg + 1) tens }
            if s1.index_reg + 2 < 4096 then
              StepResult.ok { s3 with memory := upd s3.memory (s1.index_reg + 2) ones }
                DisplayState.NotUpdated
            else StepResult.fatal PanicKind.memOob s3
          else StepResult.fatal PanicKind.memOob s2
        else StepResult.fatal PanicKind.memOob s1
      else if nn = 0x55 then
        match storeLoop s1 s1.index_reg (List.range (x + 1)) with
        | Except.ok s2 => StepResult.ok s2 DisplayState.NotUpdated
        | Except.error s2 => StepResult.fatal PanicKind.memOob s2
      else if nn = 0x65 then
        match loadLoop s1 s1.index_reg (List.range (x + 1)) with
        | Except.ok s2 => StepResult.ok s2 DisplayState.NotUpdated
        | Except.error s2 => StepResult.fatal PanicKind.memOob s2
      else StepResult.fatal (PanicKind.invalidInstruction inst) s1
    else StepResult.fatal (PanicKind.unhandledNibble inst) s1
  else StepResult.fatal PanicKind.fetchOob s

/-- State carried by a `StepResult` (final state on `ok`, panic-time
state on `fatal`). -/
def StepResult.state : StepResult → Chip8
  | StepResult.ok s _ => s
  | StepResult.fatal _ s => s

/-- Whether the step panicked. -/
def StepResult.isFatal : StepResult → Bool
  | StepResult.ok _ _ => false
  | StepResult.fatal _ _ => true

/-- Register `i` of the carried state. -/
def StepResult.regAt (r : StepResult) (i : Nat) : Nat := r.state.registers i

/-- Program counter of the carried state. -/
def StepResult.pcAfter (r : StepResult) : Nat := r.state.pc

/-- Index register of the carried state. -/
def StepResult.indexAfter (r : StepResult) : Nat := r.state.index_reg

/-- One display pixel of the carried state. -/
def StepResult.pixel (r : StepResult) (row col : Nat) : Bool := r.state.display row col

/-- `Chip8::tick_timers`. -/
def tick_timers (s : Chip8) : Chip8 :=
  { s with
    delay_timer := if s.delay_timer > 0 then s.delay_timer - 1 else s.delay_timer
    sound_timer := if s.sound_timer > 0 then s.sound_timer - 1 else s.sound_timer }

/-- `Chip8::is_sound_on`. -/
def is_sound_on (s : Chip8) : Bool := s.sound_timer > 0

/-- The 80 font bytes in address order, glyph 0 first. -/
def fontFlat : List Nat := FONTS.flatten

/-- Keypad snapshot with no key pressed. -/
def noKeys : Nat → Bool := fun _ => false

/-- All-zero memory. -/
def zeroMem : Nat → Nat := fun _ => 0

/-- A freshly reset machine used as the base of the concrete states
below: zero memory, blank display, program counter 0x200, everything
else cleared. -/
def baseState : Chip8 :=
  { memory := zeroMem
    display := fun _ _ => false
    pc := 0x200
    index_reg := 0
    stack := []
    delay_timer := 0
    sound_timer := 0
    registers := fun _ => 0 }

/-- One pixel XOR as the specification words it: a set sprite bit toggles
the target pixel, and turning an on pixel off records a collision by
setting the flag component to 1 (otherwise the flag is kept). -/
def specXorPixel (d : Nat → Nat → Bool) (vf row col : Nat) : (Nat → Nat → Bool) × Nat :=
  if d row col then (updDisp d row col false, 1) else (updDisp d row col true, vf)

/-- One specified bit: XOR bit `bit_idx` of the byte into the
display/flag pair when it is set. -/
def specBitStep (byte bit_idx row col : Nat) (dv : (Nat → Nat → Bool) × Nat) : (Nat → Nat → Bool) × Nat :=
  if byte &&& (0x80 >>> bit_idx) > 0 then specXorPixel dv.1 dv.2 row col else dv

/-- Specified drawing of the remaining bits of one sprite row: most
significant bit first, one column per bit, clipping once the column
counter would reach 64. -/
def specDrawBits (byte row : Nat) : List Nat → Nat → ((Nat → Nat → Bool) × Nat) → ((Nat → Nat → Bool) × Nat)
  | [], _, dv => dv
  | bit_idx :: rest, col, dv =>
      if col < 64 then
        specDrawBits byte row rest (col + 1) (specBitStep byte bit_idx row col dv)
      else dv

/-- Specified drawing of the sprite rows, top to bottom, every row
starting at the same fixed column, clipping once the row counter would
reach 32. -/
def specDrawRows : List Nat → Nat → Nat → ((Nat → Nat → Bool) × Nat) → ((Nat → Nat → Bool) × Nat)
  | [], _, _, dv => dv
  | byte :: rest, row, col, dv =>
      if row < 32 then
        specDrawRows rest (row + 1) col (specDrawBits byte row (List.range 8) col dv)
      else dv

/-- The DXYN draw exactly as the specification words it: wrap the start
coordinates once on entry (row VY mod 32, column VX mod 64), clear the
flag, then XOR the sprite rows with clipping at the screen edges. The
second component is the final flag: 1 exactly when some on pixel was
turned off. -/
def specDrawSprite (bytes : List Nat) (vx vy : Nat) (d : Nat → Nat → Bool) : (Nat → Nat → Bool) × Nat :=
  specDrawRows bytes (vy % 32) (vx % 64) (d, 0)

/-- Concrete state for C1: opcode 800E at 0x200, V0 = 0x81. -/
def c1State : Chip8 :=
  { baseState with memory := upd (upd zeroMem 0x200 0x80) 0x201 0x0E,
                   registers := upd (fun _ => 0) 0x0 0x81 }

/-- Concrete state for C2: opcode F01E at 0x200, VF = 5, V0 = 0, I = 0. -/
def c2State : Chip8 :=
  { baseState with memory := upd (upd zeroMem 0x200 0xF0) 0x201 0x1E,
                   registers := upd (fun _ => 0) 0xF 5 }

/-- Concrete state for the C2 witness: opcode F01E at 0x200, I = 0xFFFF,
V0 = 2, so the 16-bit addition overflows. -/
def w2State : Chip8 :=
  { baseState with memory := upd (upd zeroMem 0x200 0xF0) 0x201 0x1E,
                   index_reg := 0xFFFF,
                   registers := upd (fun _ => 0) 0x0 2 }

/-- Concrete state for C3: opcode 8F0E at 0x200 (X = 0xF), VF = 0x81. -/
def c3State : Chip8 :=
  { baseState with memory := upd (upd zeroMem 0x200 0x8F) 0x201 0x0E,
                   registers := upd (fun _ => 0) 0xF 0x81 }

/-- Concrete state for the C3 witness: opcode 8FF4 at 0x200 (X = Y =
0xF), VF = 200, so the add 200 + 200 carries. -/
def w3State : Chip8 :=
  { baseState with memory := upd (upd zeroMem 0x200 0x8F) 0x201 0xF4,
                   registers := upd (fun _ => 0) 0xF 200 }

/-- Concrete state for C4: opcode 00EE at 0x200 with an empty stack. -/
def c4State : Chip8 :=
  { baseState with memory := upd (upd zeroMem 0x200 0x00) 0x201 0xEE }

/-- Concrete state for C5: opcode 5001 at 0x200 (a 5XYN pattern with
last nibble 1). -/
def c5State : Chip8 :=
  { baseState with memory := upd (upd zeroMem 0x200 0x50) 0x201 0x01 }

/-- Concrete state for C7: opcode DFF1 at 0x200 (X = Y = 0xF), VF = 1,
index register 0 and the one-row sprite 0x80 stored at address 0. -/
def c7State : Chip8 :=
  { baseState with memory := upd (upd (upd zeroMem 0x200 0xDF) 0x201 0xF1) 0x0 0x80,
                   registers := upd (fun _ => 0) 0xF 1 }

/-- Concrete state for the C7 witness: opcode D011 at 0x200 (X = 0,
Y = 1, N = 1), V0 = 60, V1 = 0, sprite byte 0xFF at address 0. -/
def w7State : Chip8 :=
  { baseState with memory := upd (upd (upd zeroMem 0x200 0xD0) 0x201 0x11) 0x0 0xFF,
                   registers := upd (fun _ => 0) 0x0 60 }

/-- Concrete state for C8: opcode F50A at 0x200. -/
def c8State : Chip8 :=
  { baseState with memory := upd (upd zeroMem 0x200 0xF5) 0x201 0x0A }

/-- Keypad snapshot for the C8 witness: keys 3 and 7 pressed. -/
def someKeys : Nat → Bool := fun i => i == 3 || i == 7

/-- Concrete state for C9: opcode D01A at 0x200 (N = 10) with index
register 4090, so the sprite slice [4090, 4100) leaves memory. -/
def c9State : Chip8 :=
  { baseState with memory := upd (upd zeroMem 0x200 0xD0) 0x201 0x1A,
                   index_reg := 4090 }

/-- Concrete state for the C10 witness: opcode 8535 at 0x200 (X = 5,
Y = 3), V5 = 3, V3 = 10, so the subtraction borrows. -/
def w10State : Chip8 :=
  { baseState with memory := upd (upd zeroMem 0x200 0x85) 0x201 0x35,
                   registers := upd (upd (fun _ => 0) 0x5 3) 0x3 10 }

/-! ## Helper lemmas -/

@[simp]
lemma upd_self (f : Nat → Nat) (i v : Nat) : upd f i v i = v := by
  simp [upd]

lemma upd_ne (f : Nat → Nat) {i j : Nat} (v : Nat) (h : j ≠ i) : upd f i v j = f j := by
  simp [upd, h]

lemma load_program_none (p : List Nat) (h : p.length > 3584) : load_program p = none := by
  unfold load_program
  rw [if_pos]
  omega

lemma copyFromSlice_eq (bs : List Nat) : ∀ (mem : Nat → Nat) (start a : Nat),
    copyFromSlice mem start bs a =
      if start ≤ a ∧ a < start + bs.length then bs.getD (a - start) 0 else mem a := by
  induction bs with
  | nil =>
      intro mem start a
      rw [copyFromSlice, if_neg (by rw [List.length_nil]; omega)]
  | cons b bs ih =>
      intro mem start a
      rw [copyFromSlice, ih]
      simp only [List.length_cons]
      by_cases h2 : a = start
      · subst h2
        rw [if_neg (by omega), if_pos (by omega)]
        simp [upd]
      · by_cases h1 : start + 1 ≤ a ∧ a < start + 1 + bs.length
        · rw [if_pos h1, if_pos (by omega)]
          have : a - start = (a - (start + 1)) + 1 := by omega
          rw [this, List.getD_cons_succ]
        · rw [if_neg h1, if_neg (by omega), upd_ne _ _ h2]

lemma copyFromSlice_append (as bs : List Nat) : ∀ (mem : Nat → Nat) (start : Nat),
    copyFromSlice mem start (as ++ bs) =
      copyFromSlice (copyFromSlice mem start as) (start + as.length) bs := by
  induction as with
  | nil => intro mem start; simp [copyFromSlice]
  | cons a as ih =>
      intro mem start
      rw [List.cons_append, copyFromSlice, copyFromSlice, ih]
      have : start + 1 + as.length = start + (a :: as).length := by simp; omega
      rw [this]

lemma writeFonts_eq (fs : List (List Nat)) : ∀ (mem : Nat → Nat) (idx : Nat),
    (∀ f ∈ fs, f.length = 5) →
    writeFonts mem idx fs = copyFromSlice mem (0x50 + 5 * idx) fs.flatten := by
  induction fs with
  | nil => intro mem idx _; simp [writeFonts, copyFromSlice]
  | cons f fs ih =>
      intro mem idx hlen
      rw [writeFonts, List.flatten_cons, copyFromSlice_append,
        ih _ _ (fun g hg => hlen g (List.mem_cons_of_mem f hg))]
      have : 0x50 + 5 * idx + f.length = 0x50 + 5 * (idx + 1) := by
        rw [hlen f (List.mem_cons_self f fs)]; omega
      rw [this]

/-! ## C6. Program loading -/

/-- C6 (amended): loading a program of length at most 3584 succeeds and
produces the documented reset state — program bytes unchanged at
[0x200, 0x200 + L), the 80 font bytes at [0x50, 0xA0), zero elsewhere in
memory, program counter 0x200, index register 0, both timers 0, all 16
registers 0, empty stack and a blank display. Loading a longer program
reaches the `panic!` assertion in `load_program` (modelled by `none`),
mutating no prior state; the panic is process-fatal rather than a
recoverable ProgramTooLarge error value. -/
theorem c6_load_characterization (p : List Nat) :
    (p.length ≤ 3584 →
      ∃ s, load_program p = some s ∧
        (∀ i, i < p.length → s.memory (0x200 + i) = p.getD i 0) ∧
        (∀ i, i < 80 → s.memory (0x50 + i) = fontFlat.getD i 0) ∧
        (∀ a, ¬ (0x200 ≤ a ∧ a < 0x200 + p.length) → ¬ (0x50 ≤ a ∧ a < 0xA0) →
          s.memory a = 0) ∧
        s.pc = 0x200 ∧ s.index_reg = 0 ∧ s.delay_timer = 0 ∧ s.sound_timer = 0 ∧
        s.stack = [] ∧ (∀ i, s.registers i = 0) ∧ (∀ rw cl, s.display rw cl = false)) ∧
    (p.length > 3584 → load_program p = none) := by
  constructor
  · intro hle
    have hfonts : ∀ f ∈ FONTS, f.length = 5 := by decide
    have hflat : fontFlat.length = 80 := by decide
    simp only [load_program]
    rw [if_neg (by omega)]
    rw [writeFonts_eq FONTS (copyFromSlice (fun _ => 0) 0x200 p) 0 hfonts]
    simp only [Nat.mul_zero, Nat.add_zero]
    rw [show FONTS.flatten = fontFlat from rfl]
    refine ⟨_, rfl, ?_, ?_, ?_, rfl, rfl, rfl, rfl, rfl, fun i => rfl, fun rw cl => rfl⟩
    · intro i hi
      show copyFromSlice (copyFromSlice (fun _ => 0) 0x200 p) 0x50 fontFlat (0x200 + i) = _
      rw [copyFromSlice_eq, if_neg (by rw [hflat]; omega),
        copyFromSlice_eq, if_pos (by omega)]
      have hidx : 0x200 + i - 0x200 = i := by omega
      rw [hidx]
    · intro i hi
      show copyFromSlice (copyFromSlice (fun _ => 0) 0x200 p) 0x50 fontFlat (0x50 + i) = _
      rw [copyFromSlice_eq, if_pos (by rw [hflat]; omega)]
      have hidx : 0x50 + i - 0x50 = i := by omega
      rw [hidx]
    · intro a ha1 ha2
      show copyFromSlice (copyFromSlice (fun _ => 0) 0x200 p) 0x50 fontFlat a = 0
      rw [copyFromSlice_eq, if_neg (by rw [hflat]; omega),
        copyFromSlice_eq, if_neg (by omega)]
  · exact load_program_none p

/-- C6 counterexample side, made concrete: a 3585-byte program does not
produce a recoverable failure value but reaches the `panic!` assertion in
`load_program` (modelled by `none`), so the failure is fatal to the
process rather than a distinguishable ProgramTooLarge condition returned
to the caller. -/
theorem c6_counterexample : load_program (List.replicate 3585 0) = none :=
  load_program_none _ (by rw [List.length_replicate]; omega)

/-- C6 witness: the characterization applied to the one-byte program
[7]. -/
theorem c6_load_witness :
    ([(7 : Nat)].length ≤ 3584) ∧
    ∃ s, load_program [(7 : Nat)] = some s ∧ s.memory 0x200 = 7 ∧ s.pc = 0x200 := by
  refine ⟨by norm_num, ?_⟩
  obtain ⟨s, hs, hprog, -, -, hpc, -⟩ :=
    (c6_load_characterization [(7 : Nat)]).1 (by norm_num)
  refine ⟨s, hs, ?_, hpc⟩
  have := hprog 0 (by norm_num)
  simpa using this

/-! ## C8. FX0A key wait -/

lemma find_first_in_range' (k : Nat → Bool) :
    ∀ (len start j : Nat), start ≤ j → j < start + len → k j = true →
      (∀ i, start ≤ i → i < j → k i = false) →
      (List.range' start len).find? k = some j
  | 0, start, j, h1, h2, _, _ => by omega
  | len + 1, start, j, h1, h2, h3, h4 => by
      rw [List.range'_succ start len 1]
      by_cases hks : k start = true
      · have hj : j = start := by
          by_contra hne
          have hlt : start < j := by omega
          have := h4 start (Nat.le_refl start) hlt
          rw [this] at hks
          exact Bool.noConfusion hks
        subst hj
        rw [List.find?_cons_of_pos _ hks]
      · rw [List.find?_cons_of_neg _ (by simpa using hks)]
        have hne : j ≠ start := by
          intro he
          rw [← he] at hks
          exact hks h3
        exact find_first_in_range' k len (start + 1) j (by omega) (by omega) h3
          (fun i hi1 hi2 => h4 i (by omega) hi2)

/-- C8: executing FX0A with no key pressed returns the state completely
unchanged (the unconditional advance of the program counter is undone by
the decrement, and no register is modified); with at least one key
pressed, VX is set to the lowest-indexed pressed key and the program
counter advances by 2. -/
theorem c8_key_wait (s : Chip8) (k : Nat → Bool) (r : Nat) (x j : Nat)
    (hpc : s.pc + 1 < 4096)
    (hf : s.memory s.pc >>> 4 = 0xf)
    (hx : s.memory s.pc &&& 0xF = x)
    (hnn : s.memory (s.pc + 1) = 0x0a) :
    ((∀ i, i < 16 → k i = false) →
      step s k r = StepResult.ok s DisplayState.NotUpdated) ∧
    (j < 16 → k j = true → (∀ i, i < j → k i = false) →
      step s k r = StepResult.ok { s with pc := s.pc + 2, registers := upd s.registers x j }
        DisplayState.NotUpdated) := by
  constructor
  · intro hnone
    have hfind : (List.range 16).find? k = none := by
      rw [List.find?_eq_none]
      intro i hi
      have := hnone i (List.mem_range.mp hi)
      simp [this]
    simp [step, hpc, hf, hx, hnn, hfind]
  · intro hj hkj hmin
    have hfind : (List.range 16).find? k = some j := by
      rw [List.range_eq_range']
      exact find_first_in_range' k 16 0 j (by omega) (by omega) hkj
        (fun i _ hi => hmin i hi)
    simp [step, hpc, hf, hx, hnn, hfind]

/-- C8 witness: the key-wait theorem at the concrete state c8State, once
with no key pressed (state fully unchanged) and once with keys 3 and 7
pressed (V5 receives 3, the lowest pressed index). -/
theorem c8_key_wait_witness :
    step c8State noKeys 0 = StepResult.ok c8State DisplayState.NotUpdated ∧
    step c8State someKeys 0 = StepResult.ok
      { c8State with pc := c8State.pc + 2, registers := upd c8State.registers 5 3 }
      DisplayState.NotUpdated := by
  constructor
  · exact (c8_key_wait c8State noKeys 0 5 0 (by decide) (by decide) (by decide)
      (by decide)).1 (fun i _ => rfl)
  · exact (c8_key_wait c8State someKeys 0 5 3 (by decide) (by decide) (by decide)
      (by decide)).2 (by decide) (by decide) (fun i hi => by interval_cases i <;> rfl)

/-! ## C1. 8XYE shift flag -/

/-- C1: the code at the failing input. Executing 8XYE with VX = 0x81
stores the unnormalized mask value VX AND 0x80 = 0x80 into VF instead of
the flag value 1 required by the claim and the specification; VX itself
becomes 0x02 exactly as claimed. -/
theorem c1_shiftE_flag_unnormalized :
    (step c1State noKeys 0).regAt 0xF = 0x80 ∧
    (step c1State noKeys 0).regAt 0x0 = 0x02 ∧ (0x80 : Nat) ≠ 1 := by decide

/-! ## C2. FX1E overflow flag -/

/-- C2 counterexample: executing FX1E without 16-bit overflow (I = 0,
V0 = 0) leaves VF at its previous value 5, while the claim requires VF to
be set to 0. -/
theorem c2_counterexample :
    (step c2State noKeys 0).regAt 0xF = 5 ∧ (step c2State noKeys 0).regAt 0xF ≠ 0 ∧
    (step c2State noKeys 0).indexAfter = 0 := by decide

/-- C2 (amended): FX1E sets the index register to (I + VX) mod 2^16 and
sets VF to 1 when the 16-bit addition overflowed; when it does not
overflow, VF — like every other register — is left unchanged. -/
theorem c2_add_to_index (s : Chip8) (k : Nat → Bool) (r : Nat) (x : Nat)
    (hpc : s.pc + 1 < 4096)
    (hf : s.memory s.pc >>> 4 = 0xf)
    (hx : s.memory s.pc &&& 0x0f = x)
    (hnn : s.memory (s.pc + 1) = 0x1e)
    (hI : s.index_reg < 65536) (hvx : s.registers x < 256) :
    (s.index_reg + s.registers x ≥ 65536 →
      step s k r = StepResult.ok
        { s with pc := s.pc + 2,
                 index_reg := (s.index_reg + s.registers x) % 65536,
                 registers := upd s.registers 0xf 1 }
        DisplayState.NotUpdated) ∧
    (s.index_reg + s.registers x < 65536 →
      step s k r = StepResult.ok
        { s with pc := s.pc + 2, index_reg := s.index_reg + s.registers x }
        DisplayState.NotUpdated) := by
  constructor
  · intro ho
    have hlt : (s.index_reg + s.registers x) % 65536 < s.index_reg := by omega
    simp [step, hpc, hf, hx, hnn, hlt]
  · intro hno
    have heq : (s.index_reg + s.registers x) % 65536 = s.index_reg + s.registers x :=
      Nat.mod_eq_of_lt hno
    have hnlt : ¬ ((s.index_reg + s.registers x) % 65536 < s.index_reg) := by omega
    simp [step, hpc, hf, hx, hnn, hnlt, heq]

/-- C2 witness: the overflow side at the concrete state w2State
(I = 0xFFFF, V0 = 2). -/
theorem c2_add_to_index_witness :
    step w2State noKeys 0 = StepResult.ok
      { w2State with pc := w2State.pc + 2,
                     index_reg := (w2State.index_reg + w2State.registers 0) % 65536,
                     registers := upd w2State.registers 0xf 1 }
      DisplayState.NotUpdated :=
  (c2_add_to_index w2State noKeys 0 0 (by decide) (by decide) (by decide) (by decide)
    (by decide) (by decide)).1 (by decide)

/-! ## C9. DXYN sprite read bounds -/

/-- C9: the DXYN sprite read is the slice [I, I + N): it succeeds exactly
when I + N ≤ 4096, and for I + N > 4096 the step panics with an
out-of-bounds error (no wraparound, no truncation); at the panic the
flag register has already been cleared and the pc advanced. -/
theorem c9_sprite_bounds (s : Chip8) (k : Nat → Bool) (r : Nat) (x y n : Nat)
    (hpc : s.pc + 1 < 4096)
    (hf : s.memory s.pc >>> 4 = 0xd)
    (hx : s.memory s.pc &&& 0x0f = x)
    (hy : s.memory (s.pc + 1) >>> 4 = y)
    (hn : s.memory (s.pc + 1) &&& 0x0f = n) :
    (s.index_reg + n ≤ 4096 →
      ∃ s2, step s k r = StepResult.ok s2 DisplayState.Updated) ∧
    (s.index_reg + n > 4096 →
      step s k r = StepResult.fatal PanicKind.spriteOob
        { s with pc := s.pc + 2, registers := upd s.registers 0xF 0 }) := by
  constructor
  · intro hb
    refine ⟨drawRows ((List.range n).map (fun i => s.memory (s.index_reg + i)))
      (s.registers y % 32) x { s with pc := s.pc + 2, registers := upd s.registers 0xF 0 }, ?_⟩
    simp [step, hpc, hf, hx, hy, hn, hb]
  · intro hb
    have hnb : ¬ (s.index_reg + n ≤ 4096) := by omega
    simp [step, hpc, hf, hx, hy, hn, hnb]

/-- C9 witness: the out-of-bounds side at the concrete state c9State
(opcode D01A, I = 4090, so the slice would be [4090, 4100)). -/
theorem c9_sprite_bounds_witness :
    step c9State noKeys 0 = StepResult.fatal PanicKind.spriteOob
      { c9State with pc := c9State.pc + 2, registers := upd c9State.registers 0xF 0 } :=
  (c9_sprite_bounds c9State noKeys 0 0 1 10 (by decide) (by decide) (by decide)
    (by decide) (by decide)).2 (by decide)

/-! ## C10. 8XY5 / 8XY7 do not write a borrow flag -/

/-- C10: for X ≠ 0xF, the wrapping subtractions 8XY5 (VX ← VX − VY) and
8XY7 (VX ← VY − VX) change only register X and the program counter; in
particular VF keeps its previous value — no borrow flag is written. -/
theorem c10_sub_touches_only_vx (s : Chip8) (k : Nat → Bool) (r : Nat) (x y : Nat)
    (hpc : s.pc + 1 < 4096)
    (hf : s.memory s.pc >>> 4 = 0x8)
    (hx : s.memory s.pc &&& 0x0f = x)
    (hy : s.memory (s.pc + 1) >>> 4 = y)
    (hxF : x ≠ 0xF) :
    (s.memory (s.pc + 1) &&& 0x0f = 0x5 →
      step s k r = StepResult.ok
        { s with pc := s.pc + 2,
                 registers := upd s.registers x ((s.registers x + 256 - s.registers y) % 256) }
        DisplayState.NotUpdated ∧
      (step s k r).regAt 0xF = s.registers 0xF) ∧
    (s.memory (s.pc + 1) &&& 0x0f = 0x7 →
      step s k r = StepResult.ok
        { s with pc := s.pc + 2,
                 registers := upd s.registers x ((s.registers y + 256 - s.registers x) % 256) }
        DisplayState.NotUpdated ∧
      (step s k r).regAt 0xF = s.registers 0xF) := by
  constructor
  · intro hn
    have h : step s k r = StepResult.ok
        { s with pc := s.pc + 2,
                 registers := upd s.registers x ((s.registers x + 256 - s.registers y) % 256) }
        DisplayState.NotUpdated := by
      simp [step, hpc, hf, hx, hy, hn]
    exact ⟨h, by rw [h]; exact upd_ne _ _ (Ne.symm hxF)⟩
  · intro hn
    have h : step s k r = StepResult.ok
        { s with pc := s.pc + 2,
                 registers := upd s.registers x ((s.registers y + 256 - s.registers x) % 256) }
        DisplayState.NotUpdated := by
      simp [step, hpc, hf, hx, hy, hn]
    exact ⟨h, by rw [h]; exact upd_ne _ _ (Ne.symm hxF)⟩

/-- C10 witness: 8XY5 at the concrete state w10State (V5 = 3, V3 = 10,
borrowing subtraction), with VF unchanged. -/
theorem c10_sub_witness :
    step w10State noKeys 0 = StepResult.ok
      { w10State with pc := w10State.pc + 2,
                      registers := upd w10State.registers 5
                        ((w10State.registers 5 + 256 - w10State.registers 3) % 256) }
      DisplayState.NotUpdated ∧
    (step w10State noKeys 0).regAt 0xF = w10State.registers 0xF :=
  (c10_sub_touches_only_vx w10State noKeys 0 5 3 (by decide) (by decide) (by decide)
    (by decide) (by decide)).1 (by decide)

/-! ## C4 and C5. Fatal conditions and dispatch coverage -/

lemma step_ret_empty (s : Chip8) (k : Nat → Bool) (r : Nat)
    (hpc : s.pc + 1 < 4096)
    (h1 : s.memory s.pc = 0x00) (h2 : s.memory (s.pc + 1) = 0xEE)
    (hs : s.stack = []) :
    step s k r = StepResult.fatal PanicKind.emptyStack { s with pc := s.pc + 2 } := by
  have ha : (0xEE : Nat) &&& 0x0fff = 0xEE := by decide
  simp [step, hpc, h1, h2, hs, ha]

lemma step_zero_invalid (s : Chip8) (k : Nat → Bool) (r : Nat) (a b : Nat)
    (hpc : s.pc + 1 < 4096)
    (h1 : s.memory s.pc = a) (ha : a < 16)
    (h2 : s.memory (s.pc + 1) = b) (hb : b < 256)
    (hb1 : a * 256 + b ≠ 0xE0) (hb2 : a * 256 + b ≠ 0xEE) :
    step s k r = StepResult.fatal (PanicKind.invalidInstruction (a * 256 + b))
      { s with pc := s.pc + 2 } := by
  have hshift : a >>> 4 = 0 := by
    rw [Nat.shiftRight_eq_div_pow]
    norm_num
    omega
  have hinst : (a <<< 8) ||| b = a * 256 + b := by
    have hblt : b < 2 ^ 8 := by norm_num; omega
    have h := (Nat.mul_add_lt_is_or hblt a).symm
    rw [Nat.shiftLeft_eq]
    calc a * 2 ^ 8 ||| b = 2 ^ 8 * a ||| b := by rw [Nat.mul_comm]
      _ = 2 ^ 8 * a + b := h
      _ = a * 256 + b := by ring_nf
  have hband : (a * 256 + b) &&& 0x0fff = a * 256 + b := by
    have h12 := Nat.and_pow_two_sub_one_eq_mod (a * 256 + b) 12
    norm_num at h12
    rw [h12]
    omega
  simp [step, hpc, h1, h2, hshift, hinst, hband, hb1, hb2]

lemma step_eight_invalid (s : Chip8) (k : Nat → Bool) (r : Nat) (n : Nat)
    (hpc : s.pc + 1 < 4096)
    (hf : s.memory s.pc >>> 4 = 0x8)
    (hn : s.memory (s.pc + 1) &&& 0x0f = n)
    (h0 : n ≠ 0x0) (h1 : n ≠ 0x1) (h2 : n ≠ 0x2) (h3 : n ≠ 0x3) (h4 : n ≠ 0x4)
    (h5 : n ≠ 0x5) (h6 : n ≠ 0x6) (h7 : n ≠ 0x7) (hE : n ≠ 0xE) :
    step s k r = StepResult.fatal
      (PanicKind.invalidInstruction ((s.memory s.pc <<< 8) ||| s.memory (s.pc + 1)))
      { s with pc := s.pc + 2 } := by
  simp [step, hpc, hf, hn, h0, h1, h2, h3, h4, h5, h6, h7, hE]

lemma step_e_invalid (s : Chip8) (k : Nat → Bool) (r : Nat) (b : Nat)
    (hpc : s.pc + 1 < 4096)
    (hf : s.memory s.pc >>> 4 = 0xe)
    (h2 : s.memory (s.pc + 1) = b) (hb1 : b ≠ 0x9e) (hb2 : b ≠ 0xa1) :
    step s k r = StepResult.fatal
      (PanicKind.invalidInstruction ((s.memory s.pc <<< 8) ||| b))
      { s with pc := s.pc + 2 } := by
  simp [step, hpc, hf, h2, hb1, hb2]

lemma step_f_invalid (s : Chip8) (k : Nat → Bool) (r : Nat) (b : Nat)
    (hpc : s.pc + 1 < 4096)
    (hf : s.memory s.pc >>> 4 = 0xf)
    (h2 : s.memory (s.pc + 1) = b)
    (hb1 : b ≠ 0x07) (hb2 : b ≠ 0x15) (hb3 : b ≠ 0x18) (hb4 : b ≠ 0x1e) (hb5 : b ≠ 0x0a)
    (hb6 : b ≠ 0x29) (hb7 : b ≠ 0x33) (hb8 : b ≠ 0x55) (hb9 : b ≠ 0x65) :
    step s k r = StepResult.fatal
      (PanicKind.invalidInstruction ((s.memory s.pc <<< 8) ||| b))
      { s with pc := s.pc + 2 } := by
  simp [step, hpc, hf, h2, hb1, hb2, hb3, hb4, hb5, hb6, hb7, hb8, hb9]

lemma step_font_oob (s : Chip8) (k : Nat → Bool) (r : Nat) (x : Nat)
    (hpc : s.pc + 1 < 4096)
    (hf : s.memory s.pc >>> 4 = 0xf)
    (hx : s.memory s.pc &&& 0x0f = x)
    (h2 : s.memory (s.pc + 1) = 0x29)
    (hv : s.registers x > 15) :
    step s k r = StepResult.fatal (PanicKind.fontReg (s.registers x))
      { s with pc := s.pc + 2 } := by
  simp [step, hpc, hf, hx, h2, hv]

lemma step_skip_five (s : Chip8) (k : Nat → Bool) (r : Nat) (x y : Nat)
    (hpc : s.pc + 1 < 4096)
    (hf : s.memory s.pc >>> 4 = 0x5)
    (hx : s.memory s.pc &&& 0x0f = x)
    (hy : s.memory (s.pc + 1) >>> 4 = y) :
    step s k r = StepResult.ok
      (if s.registers x = s.registers y then { s with pc := s.pc + 2 + 2 }
       else { s with pc := s.pc + 2 }) DisplayState.NotUpdated := by
  by_cases h : s.registers x = s.registers y
  · simp [step, hpc, hf, hx, hy, h]
  · simp [step, hpc, hf, hx, hy, h]

lemma step_skip_nine (s : Chip8) (k : Nat → Bool) (r : Nat) (x y : Nat)
    (hpc : s.pc + 1 < 4096)
    (hf : s.memory s.pc >>> 4 = 0x9)
    (hx : s.memory s.pc &&& 0x0f = x)
    (hy : s.memory (s.pc + 1) >>> 4 = y) :
    step s k r = StepResult.ok
      (if s.registers x ≠ s.registers y then { s with pc := s.pc + 2 + 2 }
       else { s with pc := s.pc + 2 }) DisplayState.NotUpdated := by
  by_cases h : s.registers x = s.registers y
  · simp [step, hpc, hf, hx, hy, h]
  · simp [step, hpc, hf, hx, hy, h]

/-- C4 counterexample: 00EE on an empty stack panics with the program
counter already advanced to 0x202, not restored to the 0x200 it held at
the start of the call, contradicting the claim that the state is left
unchanged including the program counter. -/
theorem c4_counterexample :
    (step c4State noKeys 0).isFatal = true ∧ (step c4State noKeys 0).pcAfter = 0x202 ∧
    c4State.pc = 0x200 := by decide

/-- C4 (amended): every runtime-fatal condition of the claim — return
with an empty stack, an invalid instruction in the families with
undefined encodings (leading nibble 0, 8, E, F), and FX29 with VX > 15 —
panics with the machine state unchanged except for the program counter,
which retains the +2 fetch advance. -/
theorem c4_fatal_preserves_state_except_pc (s : Chip8) (k : Nat → Bool) (r : Nat)
    (a b n : Nat) (hpc : s.pc + 1 < 4096) :
    (s.memory s.pc = 0x00 → s.memory (s.pc + 1) = 0xEE → s.stack = [] →
      step s k r = StepResult.fatal PanicKind.emptyStack { s with pc := s.pc + 2 }) ∧
    (s.memory s.pc = a → a < 16 → s.memory (s.pc + 1) = b → b < 256 →
      a * 256 + b ≠ 0xE0 → a * 256 + b ≠ 0xEE →
      step s k r = StepResult.fatal (PanicKind.invalidInstruction (a * 256 + b))
        { s with pc := s.pc + 2 }) ∧
    (s.memory s.pc >>> 4 = 0x8 → s.memory (s.pc + 1) &&& 0x0f = n →
      n ≠ 0x0 → n ≠ 0x1 → n ≠ 0x2 → n ≠ 0x3 → n ≠ 0x4 → n ≠ 0x5 → n ≠ 0x6 → n ≠ 0x7 →
      n ≠ 0xE →
      step s k r = StepResult.fatal
        (PanicKind.invalidInstruction ((s.memory s.pc <<< 8) ||| s.memory (s.pc + 1)))
        { s with pc := s.pc + 2 }) ∧
    (s.memory s.pc >>> 4 = 0xe → s.memory (s.pc + 1) = b → b ≠ 0x9e → b ≠ 0xa1 →
      step s k r = StepResult.fatal (PanicKind.invalidInstruction ((s.memory s.pc <<< 8) ||| b))
        { s with pc := s.pc + 2 }) ∧
    (s.memory s.pc >>> 4 = 0xf → s.memory (s.pc + 1) = b →
      b ≠ 0x07 → b ≠ 0x15 → b ≠ 0x18 → b ≠ 0x1e → b ≠ 0x0a → b ≠ 0x29 → b ≠ 0x33 →
      b ≠ 0x55 → b ≠ 0x65 →
      step s k r = StepResult.fatal (PanicKind.invalidInstruction ((s.memory s.pc <<< 8) ||| b))
        { s with pc := s.pc + 2 }) ∧
    (s.memory s.pc >>> 4 = 0xf → s.memory s.pc &&& 0x0f = n → s.memory (s.pc + 1) = 0x29 →
      s.registers n > 15 →
      step s k r = StepResult.fatal (PanicKind.fontReg (s.registers n))
        { s with pc := s.pc + 2 }) := by
  refine ⟨?_, ?_, ?_, ?_, ?_, ?_⟩
  · intro h1 h2 hs
    exact step_ret_empty s k r hpc h1 h2 hs
  · intro h1 ha h2 hb hb1 hb2
    exact step_zero_invalid s k r a b hpc h1 ha h2 hb hb1 hb2
  · intro hf hn h0 h1 h2 h3 h4 h5 h6 h7 hE
    exact step_eight_invalid s k r n hpc hf hn h0 h1 h2 h3 h4 h5 h6 h7 hE
  · intro hf h2 hb1 hb2
    exact step_e_invalid s k r b hpc hf h2 hb1 hb2
  · intro hf h2 hb1 hb2 hb3 hb4 hb5 hb6 hb7 hb8 hb9
    exact step_f_invalid s k r b hpc hf h2 hb1 hb2 hb3 hb4 hb5 hb6 hb7 hb8 hb9
  · intro hf hx h2 hv
    exact step_font_oob s k r n hpc hf hx h2 hv

/-- C4 witness: the empty-stack case at the concrete state c4State. -/
theorem c4_fatal_witness :
    step c4State noKeys 0 = StepResult.fatal PanicKind.emptyStack
      { c4State with pc := c4State.pc + 2 } :=
  (c4_fatal_preserves_state_except_pc c4State noKeys 0 0 0 0 (by decide)).1
    (by decide) (by decide) rfl

/-- C5 counterexample: the 5XYN pattern 5001 (last nibble 1) is not
fatal; it executes as the skip instruction 5XY0 (V0 = V0, so the program
counter skips to 0x204). -/
theorem c5_counterexample :
    (step c5State noKeys 0).isFatal = false ∧ (step c5State noKeys 0).pcAfter = 0x204 := by
  decide

/-- C5 (amended): instructions with leading nibble 5 or 9 ignore the
last nibble entirely and execute the register-comparison skip (so
5XYN/9XYN with N ≠ 0 are not fatal), while within the families that do
have undefined encodings (leading nibble 0, 8, E, F) every pattern
outside the dispatch table is a fatal invalid-instruction panic. -/
theorem c5_dispatch (s : Chip8) (k : Nat → Bool) (r : Nat) (x y a b n : Nat)
    (hpc : s.pc + 1 < 4096) :
    (s.memory s.pc >>> 4 = 0x5 → s.memory s.pc &&& 0x0f = x →
      s.memory (s.pc + 1) >>> 4 = y →
      step s k r = StepResult.ok
        (if s.registers x = s.registers y then { s with pc := s.pc + 2 + 2 }
         else { s with pc := s.pc + 2 }) DisplayState.NotUpdated) ∧
    (s.memory s.pc >>> 4 = 0x9 → s.memory s.pc &&& 0x0f = x →
      s.memory (s.pc + 1) >>> 4 = y →
      step s k r = StepResult.ok
        (if s.registers x ≠ s.registers y then { s with pc := s.pc + 2 + 2 }
         else { s with pc := s.pc + 2 }) DisplayState.NotUpdated) ∧
    (s.memory s.pc = a → a < 16 → s.memory (s.pc + 1) = b → b < 256 →
      a * 256 + b ≠ 0xE0 → a * 256 + b ≠ 0xEE →
      (step s k r).isFatal = true) ∧
    (s.memory s.pc >>> 4 = 0x8 → s.memory (s.pc + 1) &&& 0x0f = n →
      n ≠ 0x0 → n ≠ 0x1 → n ≠ 0x2 → n ≠ 0x3 → n ≠ 0x4 → n ≠ 0x5 → n ≠ 0x6 → n ≠ 0x7 →
      n ≠ 0xE → (step s k r).isFatal = true) ∧
    (s.memory s.pc >>> 4 = 0xe → s.memory (s.pc + 1) = b → b ≠ 0x9e → b ≠ 0xa1 →
      (step s k r).isFatal = true) ∧
    (s.memory s.pc >>> 4 = 0xf → s.memory (s.pc + 1) = b →
      b ≠ 0x07 → b ≠ 0x15 → b ≠ 0x18 → b ≠ 0x1e → b ≠ 0x0a → b ≠ 0x29 → b ≠ 0x33 →
      b ≠ 0x55 → b ≠ 0x65 → (step s k r).isFatal = true) := by
  refine ⟨?_, ?_, ?_, ?_, ?_, ?_⟩
  · intro hf hx hy
    exact step_skip_five s k r x y hpc hf hx hy
  · intro hf hx hy
    exact step_skip_nine s k r x y hpc hf hx hy
  · intro h1 ha h2 hb hb1 hb2
    rw [step_zero_invalid s k r a b hpc h1 ha h2 hb hb1 hb2]
    rfl
  · intro hf hn h0 h1 h2 h3 h4 h5 h6 h7 hE
    rw [step_eight_invalid s k r n hpc hf hn h0 h1 h2 h3 h4 h5 h6 h7 hE]
    rfl
  · intro hf h2 hb1 hb2
    rw [step_e_invalid s k r b hpc hf h2 hb1 hb2]
    rfl
  · intro hf h2 hb1 hb2 hb3 hb4 hb5 hb6 hb7 hb8 hb9
    rw [step_f_invalid s k r b hpc hf h2 hb1 hb2 hb3 hb4 hb5 hb6 hb7 hb8 hb9]
    rfl

/-- C5 witness: the 5-family conjunct at the concrete state c5State
(pattern 5001, registers equal, so the skip is taken). -/
theorem c5_dispatch_witness :
    step c5State noKeys 0 = StepResult.ok
      (if c5State.registers 0 = c5State.registers 0 then { c5State with pc := c5State.pc + 2 + 2 }
       else { c5State with pc := c5State.pc + 2 }) DisplayState.NotUpdated :=
  (c5_dispatch c5State noKeys 0 0 0 0 0 0 (by decide)).1 (by decide) (by decide) (by decide)

/-! ## C7 and C3. DXYN draw refinement -/

lemma specDrawBits_of_ge (byte row : Nat) (js : List Nat) (col : Nat)
    (dv : (Nat → Nat → Bool) × Nat) (h : 64 ≤ col) :
    specDrawBits byte row js col dv = dv := by
  cases js with
  | nil => rfl
  | cons j rest => rw [specDrawBits, if_neg (by omega)]

lemma specDrawRows_of_ge (bytes : List Nat) (row col : Nat)
    (dv : (Nat → Nat → Bool) × Nat) (h : 32 ≤ row) :
    specDrawRows bytes row col dv = dv := by
  cases bytes with
  | nil => rfl
  | cons b rest => rw [specDrawRows, if_neg (by omega)]

lemma drawBitStep_spec (byte j row col : Nat) (s : Chip8) :
    ((drawBitStep byte j row col s).display, (drawBitStep byte j row col s).registers 0xF)
      = specBitStep byte j row col (s.display, s.registers 0xF) ∧
    (∀ i, i ≠ 0xF → (drawBitStep byte j row col s).registers i = s.registers i) ∧
    (drawBitStep byte j row col s).pc = s.pc ∧
    (drawBitStep byte j row col s).index_reg = s.index_reg ∧
    (drawBitStep byte j row col s).stack = s.stack ∧
    (drawBitStep byte j row col s).memory = s.memory ∧
    (drawBitStep byte j row col s).delay_timer = s.delay_timer ∧
    (drawBitStep byte j row col s).sound_timer = s.sound_timer := by
  by_cases hb : byte &&& (0x80 >>> j) > 0
  · by_cases hd : s.display row col = true
    · have e : drawBitStep byte j row col s =
          { s with display := updDisp s.display row col false,
                   registers := upd s.registers 0xF 1 } := by
        simp [drawBitStep, hb, hd]
      have espec : specBitStep byte j row col (s.display, s.registers 0xF) =
          (updDisp s.display row col false, 1) := by
        simp [specBitStep, specXorPixel, hb, hd]
      rw [e, espec]
      exact ⟨rfl, fun i hi => upd_ne _ _ hi, rfl, rfl, rfl, rfl, rfl, rfl⟩
    · have e : drawBitStep byte j row col s =
          { s with display := updDisp s.display row col true } := by
        simp [drawBitStep, hb, hd]
      have espec : specBitStep byte j row col (s.display, s.registers 0xF) =
          (updDisp s.display row col true, s.registers 0xF) := by
        simp [specBitStep, specXorPixel, hb, hd]
      rw [e, espec]
      exact ⟨rfl, fun i hi => rfl, rfl, rfl, rfl, rfl, rfl, rfl⟩
  · have e : drawBitStep byte j row col s = s := by
      simp [drawBitStep, hb]
    have espec : specBitStep byte j row col (s.display, s.registers 0xF) =
        (s.display, s.registers 0xF) := by
      simp [specBitStep, hb]
    rw [e, espec]
    exact ⟨rfl, fun i hi => rfl, rfl, rfl, rfl, rfl, rfl, rfl⟩

lemma drawBits_spec (byte row : Nat) : ∀ (js : List Nat) (col : Nat) (s : Chip8), col < 64 →
    ((drawBits byte row js col s).display, (drawBits byte row js col s).registers 0xF)
        = specDrawBits byte row js col (s.display, s.registers 0xF) ∧
    (∀ i, i ≠ 0xF → (drawBits byte row js col s).registers i = s.registers i) ∧
    (drawBits byte row js col s).pc = s.pc ∧
    (drawBits byte row js col s).index_reg = s.index_reg ∧
    (drawBits byte row js col s).stack = s.stack ∧
    (drawBits byte row js col s).memory = s.memory ∧
    (drawBits byte row js col s).delay_timer = s.delay_timer ∧
    (drawBits byte row js col s).sound_timer = s.sound_timer
  | [], col, s, h => by simp [drawBits, specDrawBits]
  | j :: rest, col, s, h => by
      obtain ⟨hpair, hreg, hpc, hidx, hstk, hmem, hdt, hst⟩ := drawBitStep_spec byte j row col s
      simp only [drawBits, specDrawBits, if_pos h]
      by_cases hcol : col + 1 = 64
      · rw [if_pos hcol, hcol, specDrawBits_of_ge byte row rest 64 _ (Nat.le_refl 64)]
        exact ⟨hpair, hreg, hpc, hidx, hstk, hmem, hdt, hst⟩
      · have h64 : col + 1 < 64 := by omega
        obtain ⟨ipair, ireg, ipc, iidx, istk, imem, idt, ist⟩ :=
          drawBits_spec byte row rest (col + 1) (drawBitStep byte j row col s) h64
        rw [if_neg hcol]
        refine ⟨?_, ?_, ?_, ?_, ?_, ?_, ?_, ?_⟩
        · rw [ipair, hpair]
        · intro i hi
          rw [ireg i hi, hreg i hi]
        · rw [ipc, hpc]
        · rw [iidx, hidx]
        · rw [istk, hstk]
        · rw [imem, hmem]
        · rw [idt, hdt]
        · rw [ist, hst]

lemma drawRows_spec (x : Nat) (hx : x ≠ 0xF) : ∀ (bytes : List Nat) (row : Nat) (s : Chip8),
    row < 32 →
    ((drawRows bytes row x s).display, (drawRows bytes row x s).registers 0xF)
        = specDrawRows bytes row (s.registers x % 64) (s.display, s.registers 0xF) ∧
    (∀ i, i ≠ 0xF → (drawRows bytes row x s).registers i = s.registers i) ∧
    (drawRows bytes row x s).pc = s.pc ∧
    (drawRows bytes row x s).index_reg = s.index_reg ∧
    (drawRows bytes row x s).stack = s.stack ∧
    (drawRows bytes row x s).memory = s.memory ∧
    (drawRows bytes row x s).delay_timer = s.delay_timer ∧
    (drawRows bytes row x s).sound_timer = s.sound_timer
  | [], row, s, h => by simp [drawRows, specDrawRows]
  | byte :: rest, row, s, h => by
      have hcol : s.registers x % 64 < 64 := Nat.mod_lt _ (by omega)
      obtain ⟨bpair, breg, bpc, bidx, bstk, bmem, bdt, bst⟩ :=
        drawBits_spec byte row (List.range 8) (s.registers x % 64) s hcol
      simp only [drawRows, specDrawRows, if_pos h]
      by_cases hrow : row + 1 = 32
      · rw [if_pos hrow, hrow, specDrawRows_of_ge rest 32 _ _ (Nat.le_refl 32)]
        exact ⟨bpair, breg, bpc, bidx, bstk, bmem, bdt, bst⟩
      · have h32 : row + 1 < 32 := by omega
        obtain ⟨ipair, ireg, ipc, iidx, istk, imem, idt, ist⟩ :=
          drawRows_spec x hx rest (row + 1) (drawBits byte row (List.range 8) (s.registers x % 64) s) h32
        rw [if_neg hrow]
        have hregx : (drawBits byte row (List.range 8) (s.registers x % 64) s).registers x
            = s.registers x := breg x hx
        refine ⟨?_, ?_, ?_, ?_, ?_, ?_, ?_, ?_⟩
        · rw [ipair, hregx, bpair]
        · intro i hi
          rw [ireg i hi, breg i hi]
        · rw [ipc, bpc]
        · rw [iidx, bidx]
        · rw [istk, bstk]
        · rw [imem, bmem]
        · rw [idt, bdt]
        · rw [ist, bst]

lemma step_draw_ok (s : Chip8) (k : Nat → Bool) (r : Nat) (x y n : Nat)
    (hpc : s.pc + 1 < 4096)
    (hf : s.memory s.pc >>> 4 = 0xd)
    (hx : s.memory s.pc &&& 0x0f = x)
    (hy : s.memory (s.pc + 1) >>> 4 = y)
    (hn : s.memory (s.pc + 1) &&& 0x0f = n)
    (hxF : x ≠ 0xF)
    (hb : s.index_reg + n ≤ 4096) :
    step s k r = StepResult.ok
      { s with pc := s.pc + 2,
               display := (specDrawSprite
                 ((List.range n).map (fun i => s.memory (s.index_reg + i)))
                 (s.registers x) (s.registers y) s.display).1,
               registers := upd s.registers 0xF
                 (specDrawSprite ((List.range n).map (fun i => s.memory (s.index_reg + i)))
                   (s.registers x) (s.registers y) s.display).2 }
      DisplayState.Updated := by
  have hstep : step s k r = StepResult.ok
      (drawRows ((List.range n).map (fun i => s.memory (s.index_reg + i)))
        (s.registers y % 32) x { s with pc := s.pc + 2, registers := upd s.registers 0xF 0 })
      DisplayState.Updated := by
    simp [step, hpc, hf, hx, hy, hn, hb]
  rw [hstep]
  have hrow : s.registers y % 32 < 32 := Nat.mod_lt _ (by omega)
  obtain ⟨rpair, rreg, rpc, ridx, rstk, rmem, rdt, rst⟩ :=
    drawRows_spec x hxF ((List.range n).map (fun i => s.memory (s.index_reg + i)))
      (s.registers y % 32) { s with pc := s.pc + 2, registers := upd s.registers 0xF 0 } hrow
  have hfst := congrArg Prod.fst rpair
  have hsnd := congrArg Prod.snd rpair
  simp only [upd_self] at hfst hsnd
  rw [upd_ne _ _ hxF] at hfst hsnd
  congr 1
  refine Chip8.ext ?_ ?_ ?_ ?_ ?_ ?_ ?_ ?_
  · exact rmem
  · simpa [specDrawSprite] using hfst
  · exact rpc
  · exact ridx
  · exact rstk
  · exact rdt
  · exact rst
  · funext i
    by_cases hi : i = 0xF
    · subst hi
      simp only [specDrawSprite] at hsnd ⊢
      rw [hsnd]
      simp
    · rw [rreg i hi]
      simp [upd_ne _ _ hi]

lemma drawBitStep_vf_le (byte j row col : Nat) (s : Chip8) (h : s.registers 0xF ≤ 1) :
    (drawBitStep byte j row col s).registers 0xF ≤ 1 := by
  simp only [drawBitStep]
  by_cases hbit : byte &&& (0x80 >>> j) > 0
  · by_cases hd : s.display row col = true
    · simp [hbit, hd]
    · simp [hbit, hd]
      exact h
  · simp [hbit]
    exact h

lemma drawBits_vf_le (byte row : Nat) : ∀ (js : List Nat) (col : Nat) (s : Chip8),
    s.registers 0xF ≤ 1 → (drawBits byte row js col s).registers 0xF ≤ 1
  | [], col, s, h => h
  | j :: rest, col, s, h => by
      simp only [drawBits]
      by_cases hc : col + 1 = 64
      · rw [if_pos hc]
        exact drawBitStep_vf_le byte j row col s h
      · rw [if_neg hc]
        exact drawBits_vf_le byte row rest (col + 1) _ (drawBitStep_vf_le byte j row col s h)

lemma drawRows_vf_le (x : Nat) : ∀ (bytes : List Nat) (row : Nat) (s : Chip8),
    s.registers 0xF ≤ 1 → (drawRows bytes row x s).registers 0xF ≤ 1
  | [], row, s, h => h
  | byte :: rest, row, s, h => by
      simp only [drawRows]
      by_cases hr : row + 1 = 32
      · rw [if_pos hr]
        exact drawBits_vf_le byte row (List.range 8) _ s h
      · rw [if_neg hr]
        exact drawRows_vf_le x rest (row + 1) _ (drawBits_vf_le byte row (List.range 8) _ s h)

/-- C7 counterexample: DXYN with X = 0xF. At c7State (old VF = 1, sprite
bit at the start column), the claim predicts the draw to start at column
VX mod 64 = 1, turning pixel (1,1) on; the code instead re-reads the
start column from VF after clearing it, so pixel (1,0) is turned on and
pixel (1,1) stays off. -/
theorem c7_counterexample :
    (step c7State noKeys 0).pixel 1 0 = true ∧ (step c7State noKeys 0).pixel 1 1 = false ∧
    c7State.registers 0xF = 1 := by decide

/-- C7 (amended): for X ≠ 0xF (where re-reading VX each row equals
wrapping once on entry, since only VF changes during a draw) and a sprite
slice inside memory, DXYN draws exactly as the specification words it:
start row VY mod 32 and start column VX mod 64 wrapped once on entry,
VF first cleared, rows and bits XORed most significant bit first with
collision reported in VF, clipped at column 64 and row 32, and
display-updated reported. For X = 0xF each row instead starts at the
current flag value mod 64 (0, or 1 after a collision). -/
theorem c7_draw_follows_spec (s : Chip8) (k : Nat → Bool) (r : Nat) (x y n : Nat)
    (hpc : s.pc + 1 < 4096)
    (hf : s.memory s.pc >>> 4 = 0xd)
    (hx : s.memory s.pc &&& 0x0f = x)
    (hy : s.memory (s.pc + 1) >>> 4 = y)
    (hn : s.memory (s.pc + 1) &&& 0x0f = n)
    (hxF : x ≠ 0xF)
    (hb : s.index_reg + n ≤ 4096) :
    step s k r = StepResult.ok
      { s with pc := s.pc + 2,
               display := (specDrawSprite
                 ((List.range n).map (fun i => s.memory (s.index_reg + i)))
                 (s.registers x) (s.registers y) s.display).1,
               registers := upd s.registers 0xF
                 (specDrawSprite ((List.range n).map (fun i => s.memory (s.index_reg + i)))
                   (s.registers x) (s.registers y) s.display).2 }
      DisplayState.Updated :=
  step_draw_ok s k r x y n hpc hf hx hy hn hxF hb

/-- C7 witness: the refinement theorem at the concrete state w7State
(opcode D011, V0 = 60, V1 = 0, sprite byte 0xFF at address 0). -/
theorem c7_draw_witness :
    step w7State noKeys 0 = StepResult.ok
      { w7State with pc := w7State.pc + 2,
                     display := (specDrawSprite
                       ((List.range 1).map (fun i => w7State.memory (w7State.index_reg + i)))
                       (w7State.registers 0) (w7State.registers 1) w7State.display).1,
                     registers := upd w7State.registers 0xF
                       (specDrawSprite
                         ((List.range 1).map (fun i => w7State.memory (w7State.index_reg + i)))
                         (w7State.registers 0) (w7State.registers 1) w7State.display).2 }
      DisplayState.Updated :=
  c7_draw_follows_spec w7State noKeys 0 0 1 1 (by decide) (by decide) (by decide)
    (by decide) (by decide) (by decide) (by decide)

/-- C3 counterexample: executing 8XYE with X = 0xF and old VF = 0x81
leaves VF = 0: the flag is written before the shift and then overwritten
by it, so the final VF is neither 1 nor 0x80 (the high-bit flag of the
old VF in either convention), contradicting flag-writes-last. -/
theorem c3_counterexample :
    (step c3State noKeys 0).regAt 0xF = 0 ∧ ((0 : Nat) ≠ 1 ∧ (0 : Nat) ≠ 0x80) := by decide

/-- C3 (amended): the carry flag of 8XY4 and the overflow flag of FX1E
are written after the operand register writes for every X and Y operand
choice, including register 0xF; the DXYN collision flag is likewise
written last — for X ≠ 0xF the final VF equals the collision flag of the
reference draw, and for every X, including X = 0xF, the final VF is a
flag value (0 or 1), never data derived from a flag-overwritten
register. The shifts 8XY6/8XYE instead write VF before shifting, so with
X = 0xF the shift overwrites the just-written flag and the final VF is
always 0. -/
theorem c3_flag_write_order (s : Chip8) (k : Nat → Bool) (r : Nat) (x y n : Nat)
    (hpc : s.pc + 1 < 4096) :
    (s.memory s.pc >>> 4 = 0x8 → s.memory s.pc &&& 0x0f = x →
      s.memory (s.pc + 1) >>> 4 = y → s.memory (s.pc + 1) &&& 0x0f = 0x4 →
      (step s k r).regAt 0xF =
        if s.registers x > (s.registers x + s.registers y) % 256 then 1 else 0) ∧
    (s.memory s.pc >>> 4 = 0x8 → s.memory s.pc &&& 0x0f = 0xF →
      s.memory (s.pc + 1) &&& 0x0f = 0x6 →
      (step s k r).regAt 0xF = 0) ∧
    (s.memory s.pc >>> 4 = 0x8 → s.memory s.pc &&& 0x0f = 0xF →
      s.memory (s.pc + 1) &&& 0x0f = 0xE →
      (step s k r).regAt 0xF = 0) ∧
    (s.memory s.pc >>> 4 = 0xf → s.memory s.pc &&& 0x0f = x →
      s.memory (s.pc + 1) = 0x1e →
      (s.index_reg + s.registers x) % 65536 < s.index_reg →
      (step s k r).regAt 0xF = 1) ∧
    (s.memory s.pc >>> 4 = 0xd → s.memory s.pc &&& 0x0f = x →
      s.memory (s.pc + 1) >>> 4 = y → s.memory (s.pc + 1) &&& 0x0f = n →
      x ≠ 0xF → s.index_reg + n ≤ 4096 →
      (step s k r).regAt 0xF =
        (specDrawSprite ((List.range n).map (fun i => s.memory (s.index_reg + i)))
          (s.registers x) (s.registers y) s.display).2) ∧
    (s.memory s.pc >>> 4 = 0xd → s.memory s.pc &&& 0x0f = x →
      s.memory (s.pc + 1) &&& 0x0f = n → s.index_reg + n ≤ 4096 →
      (step s k r).regAt 0xF ≤ 1) := by
  refine ⟨?_, ?_, ?_, ?_, ?_, ?_⟩
  · intro hf hx hy hn
    simp [step, StepResult.regAt, StepResult.state, hpc, hf, hx, hy, hn, upd]
  · intro hf hx hn
    simp [step, StepResult.regAt, StepResult.state, hpc, hf, hx, hn, upd]
    rw [Nat.shiftRight_eq_div_pow, pow_one]
    omega
  · intro hf hx hn
    simp [step, StepResult.regAt, StepResult.state, hpc, hf, hx, hn, upd]
    have h128 := Nat.and_two_pow (s.registers 0xF) 7
    norm_num at h128
    rw [h128, Nat.shiftLeft_eq]
    cases hc : (s.registers 0xF).testBit 7 <;> simp [hc]
  · intro hf hx hnn hlt
    simp [step, StepResult.regAt, StepResult.state, hpc, hf, hx, hnn, hlt, upd]
  · intro hf hx hy hn hxF hb
    rw [step_draw_ok s k r x y n hpc hf hx hy hn hxF hb]
    simp [StepResult.regAt, StepResult.state]
  · intro hf hx hn hb
    have h2 : step s k r = StepResult.ok
        (drawRows ((List.range n).map (fun i => s.memory (s.index_reg + i)))
          (s.registers (s.memory (s.pc + 1) >>> 4) % 32) x
          { s with pc := s.pc + 2, registers := upd s.registers 0xF 0 })
        DisplayState.Updated := by
      simp [step, hpc, hf, hx, hn, hb]
    rw [h2]
    exact drawRows_vf_le x _ _ _ (by simp)

/-- C3 witness: the 8XY4 conjunct at the concrete state w3State
(opcode 8FF4, VF = 200 as both operands, carrying add), so the final VF
is the carry flag 1 and not the wrapped sum 144. -/
theorem c3_flag_write_order_witness :
    ((step w3State noKeys 0).regAt 0xF =
      if w3State.registers 0xF > (w3State.registers 0xF + w3State.registers 0xF) % 256
      then 1 else 0) ∧
    (step w3State noKeys 0).regAt 0xF = 1 := by
  constructor
  · exact (c3_flag_write_order w3State noKeys 0 0xF 0xF 0 (by decide)).1
      (by decide) (by decide) (by decide) (by decide)
  · decide
